import Mathlib

/-!
Verification of `server/scripts/update_cursor_mcp_config.py` from
easyspace-ai/easygrid.

The script reads an API key from `~/.easygrid/api-key`, validates it, backs
up `~/.cursor/mcp.json`, updates one entry of the `mcpServers` mapping, and
writes the mutated document back.

Model: JSON documents are a `Json` inductive whose objects are association
lists preserving insertion order (as Python dicts do).  The filesystem is a
record holding the two input files and the backup file; file contents are
modelled at the document level (the config file stores a parsed `Json`,
the key file its raw text).  `run` embeds `main`: it returns an exit code
(`none` models an unhandled exception, i.e. an abnormal termination — the
script lets non-dict shapes and similar errors propagate), an ordered trace
of side effects (prints and file writes), and the final filesystem state.
-/

namespace EasyGrid

/-- JSON values.  Objects are association lists: keys in insertion order,
mirroring Python dict semantics after `json.load`. -/
inductive Json where
  | null : Json
  | bool (b : Bool) : Json
  | num (n : Int) : Json
  | str (s : String) : Json
  | arr (elems : List Json) : Json
  | obj (fields : List (String × Json)) : Json
deriving Repr

/-- First value bound to `key`, mirroring Python `d[key]` on a dict. -/
def getKey : List (String × Json) → String → Option Json
  | [], _ => none
  | (k, v) :: rest, key => if k = key then some v else getKey rest key

/-- Python `key in d` on a dict. -/
def hasKey (m : List (String × Json)) (key : String) : Bool :=
  (getKey m key).isSome

/-- Python `d[key] = val` on a dict: replace in place if the key is
present (keeping its position), otherwise append at the end. -/
def setKey : List (String × Json) → String → Json → List (String × Json)
  | [], key, val => [(key, val)]
  | (k, v) :: rest, key, val =>
      if k = key then (k, val) :: rest else (k, v) :: setKey rest key val

/-- The characters CPython `str.strip()` removes: exactly those for which
`_PyUnicode_IsWhitespace` holds — U+0009–U+000D, U+001C–U+001F, space,
U+0085, U+00A0, U+1680, U+2000–U+200A, U+2028, U+2029, U+202F, U+205F,
U+3000. -/
def pyWhitespace (c : Char) : Bool :=
  (9 ≤ c.toNat && c.toNat ≤ 13) ||
  (28 ≤ c.toNat && c.toNat ≤ 31) ||
  c.toNat = 32 || c.toNat = 133 || c.toNat = 160 || c.toNat = 0x1680 ||
  (0x2000 ≤ c.toNat && c.toNat ≤ 0x200a) ||
  c.toNat = 0x2028 || c.toNat = 0x2029 || c.toNat = 0x202f ||
  c.toNat = 0x205f || c.toNat = 0x3000

/-- Python `s.strip()`: drop leading and trailing whitespace. -/
def pyStrip (s : String) : String :=
  String.mk (((s.data.dropWhile pyWhitespace).reverse.dropWhile
      pyWhitespace).reverse)

/-! ### Serialization: `json.dump(x, f, indent=2, ensure_ascii=False)` -/

def spaces (n : Nat) : String :=
  String.mk (List.replicate n ' ')

def hexDigit (n : Nat) : Char :=
  if n < 10 then Char.ofNat (48 + n) else Char.ofNat (87 + n)

/-- How Python's json module escapes a character inside a string literal
with `ensure_ascii=False`: the two-character escapes, `\u00XX` for other
control characters, and every other character literally. -/
def escapeChar (c : Char) : String :=
  if c = '"' then "\\\""
  else if c = '\\' then "\\\\"
  else if c = '\n' then "\\n"
  else if c = '\r' then "\\r"
  else if c = '\t' then "\\t"
  else if c = Char.ofNat 8 then "\\b"
  else if c = Char.ofNat 12 then "\\f"
  else if c.toNat < 32 then
    "\\u00" ++ String.mk [hexDigit (c.toNat / 16), hexDigit (c.toNat % 16)]
  else String.singleton c

def quoteStr (s : String) : String :=
  "\"" ++ String.join (s.data.map escapeChar) ++ "\""

mutual

/-- Pretty-printer for `json.dump(x, f, indent=2, ensure_ascii=False)`.
`ind` is the indentation of the line on which the value started. -/
def dumpJson (ind : Nat) : Json → String
  | Json.null => "null"
  | Json.bool b => if b then "true" else "false"
  | Json.num n => toString n
  | Json.str s => quoteStr s
  | Json.arr xs =>
      if xs.isEmpty then "[]"
      else "[\n" ++ String.intercalate ",\n" (dumpArrItems (ind + 2) xs) ++
        "\n" ++ spaces ind ++ "]"
  | Json.obj fields =>
      if fields.isEmpty then "\x7b\x7d"
      else "\x7b\n" ++
        String.intercalate ",\n" (dumpObjItems (ind + 2) fields) ++
        "\n" ++ spaces ind ++ "\x7d"

def dumpArrItems (ind : Nat) : List Json → List String
  | [] => []
  | x :: xs => (spaces ind ++ dumpJson ind x) :: dumpArrItems ind xs

def dumpObjItems (ind : Nat) : List (String × Json) → List String
  | [] => []
  | (k, v) :: rest =>
      (spaces ind ++ quoteStr k ++ ": " ++ dumpJson ind v) ::
        dumpObjItems ind rest

end

/-- The file content `json.dump(doc, f, indent=2, ensure_ascii=False)`
produces for a whole document. -/
def dumps (doc : Json) : String :=
  dumpJson 0 doc

/-! ### The update procedure (lines 39–56 of the script) -/

def theUrl : String := "http://localhost:8080/api/mcp/v1"

def theDescription : String := "EasyGrid CRUD - MCP HTTP"

/-- Lines 42–49: pick `"easygrid"` if present, else `"easygrid-mcp"` if
present, else create an empty `"easygrid"` entry.  Returns the chosen
name together with the possibly-extended servers dict. -/
def ensureServer (servers : List (String × Json)) :
    String × List (String × Json) :=
  if hasKey servers "easygrid" then ("easygrid", servers)
  else if hasKey servers "easygrid-mcp" then ("easygrid-mcp", servers)
  else ("easygrid", setKey servers "easygrid" (Json.obj []))

/-- Lines 51–56: ensure `headers` exists, set the API key header, `url`
and `description`.  `none` models the `TypeError` the script raises (and
does not handle) when `headers` is bound to a non-dict value. -/
def updateEntry (entry : List (String × Json)) (apiKey : String) :
    Option (List (String × Json)) :=
  let entry1 := if hasKey entry "headers" then entry
    else setKey entry "headers" (Json.obj [])
  match getKey entry1 "headers" with
  | some (Json.obj headers) =>
      let headers1 := setKey headers "X-MCP-API-Key" (Json.str apiKey)
      some (setKey (setKey (setKey entry1 "headers" (Json.obj headers1))
        "url" (Json.str theUrl)) "description" (Json.str theDescription))
  | _ => none

/-- Lines 42–56 acting on the `mcpServers` dict.  `none` models the
unhandled `TypeError` raised when the chosen entry is a non-dict value. -/
def updateServers (servers : List (String × Json)) (apiKey : String) :
    Option (List (String × Json)) :=
  let p := ensureServer servers
  match getKey p.2 p.1 with
  | some (Json.obj entry) =>
      match updateEntry entry apiKey with
      | some entry1 => some (setKey p.2 p.1 (Json.obj entry1))
      | none => none
  | _ => none

/-- Lines 39–56: ensure `mcpServers` exists, then update it.  `none`
models the unhandled `TypeError` raised when `mcpServers` is bound to a
non-dict value. -/
def updateConfig (config : List (String × Json)) (apiKey : String) :
    Option (List (String × Json)) :=
  let config1 := if hasKey config "mcpServers" then config
    else setKey config "mcpServers" (Json.obj [])
  match getKey config1 "mcpServers" with
  | some (Json.obj servers) =>
      match updateServers servers apiKey with
      | some servers1 => some (setKey config1 "mcpServers" (Json.obj servers1))
      | none => none
  | _ => none

/-! ### The process: filesystem state, side-effect trace, `main` -/

/-- The slice of the filesystem the script touches.  `apiKeyFile` is the
raw text of `~/.easygrid/api-key` (`none`: absent); `mcpJson` is the
parsed document of `~/.cursor/mcp.json` (`none`: absent; malformed JSON
is outside the model, the script does not handle it); `mcpJsonBak` is
`~/.cursor/mcp.json.bak`. -/
structure FS where
  apiKeyFile : Option String
  mcpJson : Option Json
  mcpJsonBak : Option Json

/-- One observable side effect, in program order. -/
inductive Event where
  | printed (msg : String) : Event
  | wroteBak (doc : Json) : Event
  | wroteConfig (doc : Json) : Event
deriving Repr

/-- Outcome of one run of `main`: CPython exit code (`none`: the process
died on an unhandled exception), ordered side effects, final files. -/
structure RunResult where
  exitCode : Option Nat
  trace : List Event
  fs : FS

/-- The embedding of `main` (lines 10–64).  `home` is `Path.home()`,
used only inside printed messages. -/
def run (home : String) (fs : FS) : RunResult :=
  let apiKeyFile := home ++ "/.easygrid/api-key"
  let mcpJsonFile := home ++ "/.cursor/mcp.json"
  match fs.apiKeyFile with
  | none =>
      { exitCode := some 1
        trace := [Event.printed ("Error: API Key file not found at " ++ apiKeyFile),
          Event.printed "Run: go run server/cmd/mcp-api-key/main.go -action=create"]
        fs := fs }
  | some raw =>
      let apiKey := pyStrip raw
      if apiKey = "" then
        { exitCode := some 1
          trace := [Event.printed "Error: API Key is empty"]
          fs := fs }
      else
        match fs.mcpJson with
        | none =>
            { exitCode := some 1
              trace := [Event.printed ("Error: mcp.json not found at " ++ mcpJsonFile)]
              fs := fs }
        | some doc =>
            match doc with
            | Json.obj fields =>
                match updateConfig fields apiKey with
                | some newFields =>
                    { exitCode := some 0
                      trace := [Event.wroteBak doc,
                        Event.wroteConfig (Json.obj newFields),
                        Event.printed ("✅ Updated " ++ mcpJsonFile ++
                          " with API Key from " ++ apiKeyFile),
                        Event.printed "Please restart Cursor to apply changes"]
                      fs := { fs with
                        mcpJsonBak := some doc
                        mcpJson := some (Json.obj newFields) } }
                | none =>
                    { exitCode := none
                      trace := [Event.wroteBak doc]
                      fs := { fs with mcpJsonBak := some doc } }
            | _ =>
                { exitCode := none
                  trace := [Event.wroteBak doc]
                  fs := { fs with mcpJsonBak := some doc } }

/-! ### Spec-side definitions (for refinement-style comparison) -/

/-- The spec's selection rule, transcribed from its words: `easygrid` if
present, else `easygrid-mcp` if present, else `easygrid` (freshly
created). -/
def chooseName (servers : List (String × Json)) : String :=
  if hasKey servers "easygrid" then "easygrid"
  else if hasKey servers "easygrid-mcp" then "easygrid-mcp"
  else "easygrid"

/-- The entry the script builds from scratch (exactly three fields). -/
def newEntry (apiKey : String) : List (String × Json) :=
  [("headers", Json.obj [("X-MCP-API-Key", Json.str apiKey)]),
   ("url", Json.str theUrl),
   ("description", Json.str theDescription)]

/-- `true` on a trace in which no configuration write happens before a
backup write and at most one configuration write happens at all. -/
def backupBeforeConfigWrite : Bool → Bool → List Event → Bool
  | _, _, [] => true
  | sawBak, sawCfg, Event.printed _ :: rest =>
      backupBeforeConfigWrite sawBak sawCfg rest
  | _, sawCfg, Event.wroteBak _ :: rest =>
      backupBeforeConfigWrite true sawCfg rest
  | sawBak, sawCfg, Event.wroteConfig _ :: rest =>
      !sawCfg && sawBak && backupBeforeConfigWrite sawBak true rest

def isConfigWrite : Event → Bool
  | Event.wroteConfig _ => true
  | _ => false

/-- The `mcpServers` dict of a document, empty if the key is absent
(used to phrase which entry a run chose). -/
def serversOf (config : List (String × Json)) : List (String × Json) :=
  match getKey config "mcpServers" with
  | some (Json.obj servers) => servers
  | _ => []

end EasyGrid

namespace EasyGrid

/-! ### Dictionary lemmas -/

theorem getKey_setKey_self (m : List (String × Json)) (k : String) (v : Json) :
    getKey (setKey m k v) k = some v := by
  induction m with
  | nil => simp [setKey, getKey]
  | cons p rest ih =>
      obtain ⟨k1, v1⟩ := p
      by_cases h : k1 = k
      · simp [setKey, getKey, h]
      · simp [setKey, getKey, h, ih]

theorem getKey_setKey_ne (m : List (String × Json)) (k k1 : String) (v : Json)
    (h : k1 ≠ k) : getKey (setKey m k v) k1 = getKey m k1 := by
  induction m with
  | nil =>
      have hne : ¬ k = k1 := fun hh => h hh.symm
      simp [setKey, getKey, hne]
  | cons p rest ih =>
      obtain ⟨k2, v2⟩ := p
      by_cases h2 : k2 = k
      · subst h2
        have hne : ¬ k2 = k1 := fun hh => h hh.symm
        simp [setKey, getKey, hne]
      · by_cases h3 : k2 = k1
        · subst h3
          simp [setKey, getKey, h2]
        · simp [setKey, getKey, h2, h3, ih]

theorem hasKey_setKey_self (m : List (String × Json)) (k : String) (v : Json) :
    hasKey (setKey m k v) k = true := by
  simp [hasKey, getKey_setKey_self]

theorem hasKey_setKey_ne (m : List (String × Json)) (k k1 : String) (v : Json)
    (h : k1 ≠ k) : hasKey (setKey m k v) k1 = hasKey m k1 := by
  simp [hasKey, getKey_setKey_ne m k k1 v h]

/-- Writing back a value that is already there changes nothing (key update
in a Python dict keeps the key's position). -/
theorem setKey_of_getKey (m : List (String × Json)) (k : String) (v : Json)
    (h : getKey m k = some v) : setKey m k v = m := by
  induction m with
  | nil => simp [getKey] at h
  | cons p rest ih =>
      obtain ⟨k1, v1⟩ := p
      by_cases h1 : k1 = k
      · simp only [getKey, if_pos h1] at h
        simp [setKey, h1, Option.some.injEq] at h ⊢
        exact h.symm
      · simp only [getKey, if_neg h1] at h
        simp [setKey, h1, ih h]

theorem hasKey_iff_getKey (m : List (String × Json)) (k : String) :
    hasKey m k = true ↔ ∃ v, getKey m k = some v := by
  simp [hasKey, Option.isSome_iff_exists]

/-! ### Characterizations of the update steps -/

theorem updateConfig_of_getKey (config servers : List (String × Json))
    (apiKey : String) (h : getKey config "mcpServers" = some (Json.obj servers)) :
    updateConfig config apiKey = (updateServers servers apiKey).map
      (fun s => setKey config "mcpServers" (Json.obj s)) := by
  simp only [updateConfig, hasKey, h, Option.isSome_some, if_true]
  cases updateServers servers apiKey <;> simp

theorem updateConfig_of_absent (config : List (String × Json))
    (apiKey : String) (h : hasKey config "mcpServers" = false) :
    updateConfig config apiKey = (updateServers [] apiKey).map
      (fun s => setKey (setKey config "mcpServers" (Json.obj []))
        "mcpServers" (Json.obj s)) := by
  simp only [updateConfig, h, Bool.false_eq_true, if_false,
    getKey_setKey_self]
  cases updateServers [] apiKey <;> simp

theorem updateEntry_of_headers (entry hs : List (String × Json))
    (apiKey : String) (h : getKey entry "headers" = some (Json.obj hs)) :
    updateEntry entry apiKey = some (setKey (setKey (setKey entry "headers"
      (Json.obj (setKey hs "X-MCP-API-Key" (Json.str apiKey))))
      "url" (Json.str theUrl)) "description" (Json.str theDescription)) := by
  have hh : hasKey entry "headers" = true := by simp [hasKey, h]
  simp only [updateEntry, hh, if_true, h]

theorem updateEntry_of_no_headers (entry : List (String × Json))
    (apiKey : String) (h : hasKey entry "headers" = false) :
    updateEntry entry apiKey = some (setKey (setKey (setKey
      (setKey entry "headers" (Json.obj []))
      "headers" (Json.obj [("X-MCP-API-Key", Json.str apiKey)]))
      "url" (Json.str theUrl)) "description" (Json.str theDescription)) := by
  simp only [updateEntry, h, Bool.false_eq_true, if_false,
    getKey_setKey_self, setKey]

end EasyGrid

namespace EasyGrid

theorem setKey_setKey_same (m : List (String × Json)) (k : String)
    (v w : Json) : setKey (setKey m k v) k w = setKey m k w := by
  induction m with
  | nil => simp [setKey]
  | cons p rest ih =>
      obtain ⟨k1, v1⟩ := p
      by_cases h : k1 = k
      · simp [setKey, h]
      · simp [setKey, h, ih]

/-- The code's choice (lines 43–49) agrees with the spec's selection
rule. -/
theorem ensureServer_fst (servers : List (String × Json)) :
    (ensureServer servers).1 = chooseName servers := by
  unfold ensureServer chooseName
  by_cases h0 : hasKey servers "easygrid" = true
  · simp [h0]
  · by_cases h1 : hasKey servers "easygrid-mcp" = true <;> simp [h0, h1]

theorem ensureServer_cases (servers : List (String × Json)) :
    (hasKey servers "easygrid" = true ∧ ensureServer servers = ("easygrid", servers)) ∨
    (hasKey servers "easygrid" = false ∧ hasKey servers "easygrid-mcp" = true ∧
      ensureServer servers = ("easygrid-mcp", servers)) ∨
    (hasKey servers "easygrid" = false ∧ hasKey servers "easygrid-mcp" = false ∧
      ensureServer servers = ("easygrid", setKey servers "easygrid" (Json.obj []))) := by
  unfold ensureServer
  by_cases h0 : hasKey servers "easygrid" = true
  · exact Or.inl ⟨h0, by simp [h0]⟩
  · have h0f : hasKey servers "easygrid" = false := by
      cases hb : hasKey servers "easygrid" with
      | false => rfl
      | true => exact absurd hb h0
    by_cases h1 : hasKey servers "easygrid-mcp" = true
    · exact Or.inr (Or.inl ⟨h0f, h1, by simp [h0f, h1]⟩)
    · have h1f : hasKey servers "easygrid-mcp" = false := by
        cases hb : hasKey servers "easygrid-mcp" with
        | false => rfl
        | true => exact absurd hb h1
      exact Or.inr (Or.inr ⟨h0f, h1f, by simp [h0f, h1f]⟩)

/-- Inversion of a successful `updateServers`. -/
theorem updateServers_inv (servers servers1 : List (String × Json))
    (apiKey : String) (h : updateServers servers apiKey = some servers1) :
    ∃ entry entry1,
      getKey (ensureServer servers).2 (ensureServer servers).1 =
        some (Json.obj entry) ∧
      updateEntry entry apiKey = some entry1 ∧
      servers1 = setKey (ensureServer servers).2 (ensureServer servers).1
        (Json.obj entry1) := by
  simp only [updateServers] at h
  split at h
  case h_1 entry hg =>
      cases hu : updateEntry entry apiKey with
      | none => rw [hu] at h; exact absurd h (by simp)
      | some entry1 =>
          rw [hu] at h
          simp only [Option.some.injEq] at h
          exact ⟨entry, entry1, hg, hu, h.symm⟩
  case h_2 => exact absurd h (by simp)

/-- Forward computation of `updateServers` from the chosen entry. -/
theorem updateServers_eq (servers entry entry1 : List (String × Json))
    (apiKey : String)
    (hg : getKey (ensureServer servers).2 (ensureServer servers).1 =
      some (Json.obj entry))
    (hu : updateEntry entry apiKey = some entry1) :
    updateServers servers apiKey = some (setKey (ensureServer servers).2
      (ensureServer servers).1 (Json.obj entry1)) := by
  simp only [updateServers, hg, hu]

/-- Inversion of a successful `updateConfig`: the result is the document
with `mcpServers` rebound, and the servers dict it was computed from is
the one `serversOf` reads off. -/
theorem updateConfig_inv (config result : List (String × Json))
    (apiKey : String) (h : updateConfig config apiKey = some result) :
    ∃ servers1,
      updateServers (serversOf config) apiKey = some servers1 ∧
      result = setKey config "mcpServers" (Json.obj servers1) ∧
      (hasKey config "mcpServers" = false → serversOf config = []) := by
  by_cases hm : hasKey config "mcpServers" = true
  · obtain ⟨v, hv⟩ := (hasKey_iff_getKey config "mcpServers").mp hm
    cases v with
    | obj servers =>
        rw [updateConfig_of_getKey config servers apiKey hv] at h
        cases hu : updateServers servers apiKey with
        | none => rw [hu] at h; exact absurd h (by simp)
        | some servers1 =>
            rw [hu] at h
            simp only [Option.map_some', Option.some.injEq] at h
            refine ⟨servers1, ?_, h.symm, ?_⟩
            · simpa [serversOf, hv] using hu
            · intro hf; rw [hm] at hf; cases hf
    | null =>
        simp only [updateConfig, hm, if_true, hv] at h
        exact Option.noConfusion h
    | bool b =>
        simp only [updateConfig, hm, if_true, hv] at h
        exact Option.noConfusion h
    | num n =>
        simp only [updateConfig, hm, if_true, hv] at h
        exact Option.noConfusion h
    | str s =>
        simp only [updateConfig, hm, if_true, hv] at h
        exact Option.noConfusion h
    | arr xs =>
        simp only [updateConfig, hm, if_true, hv] at h
        exact Option.noConfusion h
  · have hmf : hasKey config "mcpServers" = false := by
      cases hb : hasKey config "mcpServers" with
      | false => rfl
      | true => exact absurd hb hm
    have hnone : getKey config "mcpServers" = none := by
      cases hb : getKey config "mcpServers" with
      | none => rfl
      | some v => rw [hasKey, hb] at hmf; cases hmf
    rw [updateConfig_of_absent config apiKey hmf] at h
    cases hu : updateServers [] apiKey with
    | none => rw [hu] at h; exact absurd h (by simp)
    | some servers1 =>
        rw [hu] at h
        simp only [Option.map_some', Option.some.injEq] at h
        refine ⟨servers1, ?_, ?_, fun _ => ?_⟩
        · simpa [serversOf, hnone] using hu
        · rw [← h, setKey_setKey_same]
        · simp [serversOf, hnone]

end EasyGrid

namespace EasyGrid

/-- What a successful `updateEntry` guarantees about the fields of the
resulting entry, and which fields it leaves alone. -/
theorem updateEntry_fields (entry entry1 : List (String × Json))
    (apiKey : String) (h : updateEntry entry apiKey = some entry1) :
    ∃ hs, (getKey entry "headers" = some (Json.obj hs) ∨
        (hasKey entry "headers" = false ∧ hs = [])) ∧
      getKey entry1 "headers" =
        some (Json.obj (setKey hs "X-MCP-API-Key" (Json.str apiKey))) ∧
      getKey entry1 "url" = some (Json.str theUrl) ∧
      getKey entry1 "description" = some (Json.str theDescription) ∧
      (∀ f, f ≠ "headers" → f ≠ "url" → f ≠ "description" →
        getKey entry1 f = getKey entry f) := by
  have hdh : ("headers" : String) ≠ "description" := by decide
  have hdu : ("url" : String) ≠ "description" := by decide
  have huh : ("headers" : String) ≠ "url" := by decide
  by_cases hH : hasKey entry "headers" = true
  · obtain ⟨v, hv⟩ := (hasKey_iff_getKey entry "headers").mp hH
    cases v with
    | obj hs =>
        rw [updateEntry_of_headers entry hs apiKey hv] at h
        simp only [Option.some.injEq] at h
        subst h
        refine ⟨hs, Or.inl hv, ?_, ?_, ?_, ?_⟩
        · rw [getKey_setKey_ne _ _ _ _ hdh, getKey_setKey_ne _ _ _ _ huh,
            getKey_setKey_self]
        · rw [getKey_setKey_ne _ _ _ _ hdu, getKey_setKey_self]
        · rw [getKey_setKey_self]
        · intro f hf1 hf2 hf3
          rw [getKey_setKey_ne _ _ _ _ hf3, getKey_setKey_ne _ _ _ _ hf2,
            getKey_setKey_ne _ _ _ _ hf1]
    | null =>
        simp only [updateEntry, hH, if_true, hv] at h
        exact Option.noConfusion h
    | bool b =>
        simp only [updateEntry, hH, if_true, hv] at h
        exact Option.noConfusion h
    | num n =>
        simp only [updateEntry, hH, if_true, hv] at h
        exact Option.noConfusion h
    | str s =>
        simp only [updateEntry, hH, if_true, hv] at h
        exact Option.noConfusion h
    | arr xs =>
        simp only [updateEntry, hH, if_true, hv] at h
        exact Option.noConfusion h
  · have hHf : hasKey entry "headers" = false := by
      cases hb : hasKey entry "headers" with
      | false => rfl
      | true => exact absurd hb hH
    rw [updateEntry_of_no_headers entry apiKey hHf] at h
    simp only [Option.some.injEq] at h
    rw [setKey_setKey_same] at h
    subst h
    refine ⟨[], Or.inr ⟨hHf, rfl⟩, ?_, ?_, ?_, ?_⟩
    · rw [getKey_setKey_ne _ _ _ _ hdh, getKey_setKey_ne _ _ _ _ huh,
        getKey_setKey_self]
      simp [setKey]
    · rw [getKey_setKey_ne _ _ _ _ hdu, getKey_setKey_self]
    · rw [getKey_setKey_self]
    · intro f hf1 hf2 hf3
      rw [getKey_setKey_ne _ _ _ _ hf3, getKey_setKey_ne _ _ _ _ hf2,
        getKey_setKey_ne _ _ _ _ hf1]

theorem updateEntry_nil (apiKey : String) :
    updateEntry [] apiKey = some (newEntry apiKey) := rfl

theorem updateServers_nil (apiKey : String) :
    updateServers [] apiKey = some [("easygrid", Json.obj (newEntry apiKey))] := rfl

theorem ensureServer_of_easygrid (servers : List (String × Json))
    (h : hasKey servers "easygrid" = true) :
    ensureServer servers = ("easygrid", servers) := by
  simp [ensureServer, h]

theorem ensureServer_of_mcp (servers : List (String × Json))
    (h0 : hasKey servers "easygrid" = false)
    (h1 : hasKey servers "easygrid-mcp" = true) :
    ensureServer servers = ("easygrid-mcp", servers) := by
  simp [ensureServer, h0, h1]

/-- A second `updateEntry` with the same key is a no-op. -/
theorem updateEntry_idem (entry entry1 : List (String × Json))
    (apiKey : String) (h : updateEntry entry apiKey = some entry1) :
    updateEntry entry1 apiKey = some entry1 := by
  obtain ⟨hs, _, hH, hU, hD, _⟩ := updateEntry_fields entry entry1 apiKey h
  rw [updateEntry_of_headers entry1 (setKey hs "X-MCP-API-Key"
    (Json.str apiKey)) apiKey hH]
  rw [setKey_setKey_same, setKey_of_getKey _ _ _ hH,
    setKey_of_getKey _ _ _ hU, setKey_of_getKey _ _ _ hD]

/-- When the chosen entry is already in place with an updated body,
`updateServers` is a no-op. -/
theorem updateServers_of_present (servers1 entry1 : List (String × Json))
    (apiKey name : String)
    (he : ensureServer servers1 = (name, servers1))
    (hg : getKey servers1 name = some (Json.obj entry1))
    (hu : updateEntry entry1 apiKey = some entry1) :
    updateServers servers1 apiKey = some servers1 := by
  have hstep := updateServers_eq servers1 entry1 entry1 apiKey
    (by rw [he]; exact hg) hu
  rw [he] at hstep
  rw [hstep, setKey_of_getKey _ _ _ hg]

/-- A second `updateServers` with the same key is a no-op. -/
theorem updateServers_idem (servers servers1 : List (String × Json))
    (apiKey : String) (h : updateServers servers apiKey = some servers1) :
    updateServers servers1 apiKey = some servers1 := by
  have hme : ("easygrid-mcp" : String) ≠ "easygrid" := by decide
  have hem : ("easygrid" : String) ≠ "easygrid-mcp" := by decide
  obtain ⟨entry, entry1, hg, hu, hs1⟩ := updateServers_inv servers servers1 apiKey h
  have hidem := updateEntry_idem entry entry1 apiKey hu
  rcases ensureServer_cases servers with ⟨hA, hpe⟩ | ⟨hA, hB, hpe⟩ | ⟨hA, hB, hpe⟩
  · rw [hpe] at hg hs1
    subst hs1
    exact updateServers_of_present _ entry1 apiKey "easygrid"
      (ensureServer_of_easygrid _ (hasKey_setKey_self servers "easygrid" _))
      (getKey_setKey_self servers "easygrid" _) hidem
  · rw [hpe] at hg hs1
    subst hs1
    exact updateServers_of_present _ entry1 apiKey "easygrid-mcp"
      (ensureServer_of_mcp _
        (by rw [hasKey_setKey_ne servers _ _ _ hem]; exact hA)
        (hasKey_setKey_self servers "easygrid-mcp" _))
      (getKey_setKey_self servers "easygrid-mcp" _) hidem
  · rw [hpe] at hg hs1
    rw [setKey_setKey_same] at hs1
    subst hs1
    exact updateServers_of_present _ entry1 apiKey "easygrid"
      (ensureServer_of_easygrid _ (hasKey_setKey_self servers "easygrid" _))
      (getKey_setKey_self servers "easygrid" _) hidem

/-- A second `updateConfig` with the same key is a no-op. -/
theorem updateConfig_idem (config result : List (String × Json))
    (apiKey : String) (h : updateConfig config apiKey = some result) :
    updateConfig result apiKey = some result := by
  obtain ⟨servers1, hu, heq, _⟩ := updateConfig_inv config result apiKey h
  have hget : getKey result "mcpServers" = some (Json.obj servers1) := by
    rw [heq]; exact getKey_setKey_self _ _ _
  rw [updateConfig_of_getKey result servers1 apiKey hget,
    updateServers_idem _ _ _ hu]
  simp only [Option.map_some', Option.some.injEq]
  rw [setKey_of_getKey _ _ _ hget]

end EasyGrid

namespace EasyGrid

/-- Everything a valid run does, component by component. -/
theorem run_success_eq (home : String) (fs : FS) (raw : String)
    (fields newFields : List (String × Json))
    (hA : fs.apiKeyFile = some raw) (hE : pyStrip raw ≠ "")
    (hM : fs.mcpJson = some (Json.obj fields))
    (hU : updateConfig fields (pyStrip raw) = some newFields) :
    (run home fs).exitCode = some 0 ∧
    (run home fs).trace = [Event.wroteBak (Json.obj fields),
      Event.wroteConfig (Json.obj newFields),
      Event.printed ("✅ Updated " ++ (home ++ "/.cursor/mcp.json") ++
        " with API Key from " ++ (home ++ "/.easygrid/api-key")),
      Event.printed "Please restart Cursor to apply changes"] ∧
    (run home fs).fs.apiKeyFile = some raw ∧
    (run home fs).fs.mcpJson = some (Json.obj newFields) ∧
    (run home fs).fs.mcpJsonBak = some (Json.obj fields) := by
  simp [run, hA, hE, hM, hU]

/-- A run that exits with code 0 must have read a non-blank key, found a
JSON-object config, and successfully computed the update. -/
theorem run_success_inv (home : String) (fs : FS)
    (h : (run home fs).exitCode = some 0) :
    ∃ raw fields newFields,
      fs.apiKeyFile = some raw ∧ pyStrip raw ≠ "" ∧
      fs.mcpJson = some (Json.obj fields) ∧
      updateConfig fields (pyStrip raw) = some newFields := by
  cases hA : fs.apiKeyFile with
  | none => simp [run, hA] at h
  | some raw =>
      by_cases hE : pyStrip raw = ""
      · simp [run, hA, hE] at h
      · cases hM : fs.mcpJson with
        | none => simp [run, hA, hE, hM] at h
        | some doc =>
            cases doc with
            | obj fields =>
                cases hU : updateConfig fields (pyStrip raw) with
                | none => simp [run, hA, hE, hM, hU] at h
                | some newFields =>
                    exact ⟨raw, fields, newFields, rfl, hE, rfl, hU⟩
            | null => simp [run, hA, hE, hM] at h
            | bool b => simp [run, hA, hE, hM] at h
            | num n => simp [run, hA, hE, hM] at h
            | str s => simp [run, hA, hE, hM] at h
            | arr xs => simp [run, hA, hE, hM] at h

end EasyGrid

namespace EasyGrid

/-- Shared shape of every successful `updateConfig` on a document whose
`mcpServers` is an object. -/
theorem updateConfig_success_shape (config servers result : List (String × Json))
    (apiKey : String)
    (hms : getKey config "mcpServers" = some (Json.obj servers))
    (hupd : updateConfig config apiKey = some result) :
    ∃ entry entry1 servers1,
      getKey (ensureServer servers).2 (ensureServer servers).1 =
        some (Json.obj entry) ∧
      updateEntry entry apiKey = some entry1 ∧
      servers1 = setKey (ensureServer servers).2 (ensureServer servers).1
        (Json.obj entry1) ∧
      result = setKey config "mcpServers" (Json.obj servers1) := by
  obtain ⟨servers1, hu, heq, _⟩ := updateConfig_inv config result apiKey hupd
  have hso : serversOf config = servers := by simp [serversOf, hms]
  rw [hso] at hu
  obtain ⟨entry, entry1, hg, hue, hs1⟩ := updateServers_inv servers servers1 apiKey hu
  exact ⟨entry, entry1, servers1, hg, hue, hs1, heq⟩

/-- **C1**: the entry of `mcpServers` that `main` updates is chosen by
exactly the fallback rule: `"easygrid"` if present; else `"easygrid-mcp"`
(and then no `"easygrid"` key is created); else a fresh `"easygrid"`
entry.  The code's choice coincides with the spec's `chooseName`, the
chosen key is present afterwards, and no other key of `mcpServers` is
rebound. -/
theorem entry_selection_rule (config servers result : List (String × Json))
    (apiKey : String)
    (hms : getKey config "mcpServers" = some (Json.obj servers))
    (hupd : updateConfig config apiKey = some result) :
    (ensureServer servers).1 = chooseName servers ∧
    ∃ servers1, getKey result "mcpServers" = some (Json.obj servers1) ∧
      hasKey servers1 (chooseName servers) = true ∧
      (∀ k, k ≠ chooseName servers → getKey servers1 k = getKey servers k) ∧
      (hasKey servers "easygrid" = false → hasKey servers "easygrid-mcp" = true →
        hasKey servers1 "easygrid" = false) := by
  have hem : ("easygrid" : String) ≠ "easygrid-mcp" := by decide
  obtain ⟨entry, entry1, servers1, hg, hue, hs1, heq⟩ :=
    updateConfig_success_shape config servers result apiKey hms hupd
  have hres : getKey result "mcpServers" = some (Json.obj servers1) := by
    rw [heq]; exact getKey_setKey_self _ _ _
  refine ⟨ensureServer_fst servers, servers1, hres, ?_, ?_, ?_⟩ <;>
    rcases ensureServer_cases servers with ⟨hA, hpe⟩ | ⟨hA, hB, hpe⟩ | ⟨hA, hB, hpe⟩ <;>
    have hc : chooseName servers = (ensureServer servers).1 :=
      (ensureServer_fst servers).symm <;>
    rw [hpe] at hs1 hc <;> simp only at hc
  · rw [hc, hs1]; exact hasKey_setKey_self _ _ _
  · rw [hc, hs1]; exact hasKey_setKey_self _ _ _
  · rw [hc, hs1, setKey_setKey_same]; exact hasKey_setKey_self _ _ _
  · intro k hk
    rw [hc] at hk
    rw [hs1, getKey_setKey_ne _ _ _ _ hk]
  · intro k hk
    rw [hc] at hk
    rw [hs1, getKey_setKey_ne _ _ _ _ hk]
  · intro k hk
    rw [hc] at hk
    rw [hs1, setKey_setKey_same, getKey_setKey_ne _ _ _ _ hk]
  · intro hA1 _
    rw [hA] at hA1; cases hA1
  · intro _ _
    rw [hs1, hasKey_setKey_ne _ _ _ _ hem]
    exact hA
  · intro _ hB1
    rw [hB] at hB1; cases hB1

end EasyGrid

namespace EasyGrid

/-- **C2**: on every run that exits with code 0, the chosen entry of the
written-back document has a `headers` mapping whose `"X-MCP-API-Key"` is
the trimmed key-file contents, a `url` equal to the literal
`"http://localhost:8080/api/mcp/v1"`, and a `description` equal to the
literal `"EasyGrid CRUD - MCP HTTP"`. -/
theorem success_entry_content (home : String) (fs : FS)
    (h : (run home fs).exitCode = some 0) :
    ∃ raw fields newFields servers1 entry1 hs1,
      fs.apiKeyFile = some raw ∧
      fs.mcpJson = some (Json.obj fields) ∧
      (run home fs).fs.mcpJson = some (Json.obj newFields) ∧
      getKey newFields "mcpServers" = some (Json.obj servers1) ∧
      getKey servers1 (chooseName (serversOf fields)) = some (Json.obj entry1) ∧
      getKey entry1 "headers" = some (Json.obj hs1) ∧
      getKey hs1 "X-MCP-API-Key" = some (Json.str (pyStrip raw)) ∧
      getKey entry1 "url" = some (Json.str "http://localhost:8080/api/mcp/v1") ∧
      getKey entry1 "description" = some (Json.str "EasyGrid CRUD - MCP HTTP") := by
  obtain ⟨raw, fields, newFields, hA, hE, hM, hU⟩ := run_success_inv home fs h
  obtain ⟨_, _, _, hmc, _⟩ := run_success_eq home fs raw fields newFields hA hE hM hU
  obtain ⟨servers1, hu, heq, _⟩ := updateConfig_inv fields newFields (pyStrip raw) hU
  obtain ⟨entry, entry1, hg, hue, hs1⟩ :=
    updateServers_inv (serversOf fields) servers1 (pyStrip raw) hu
  obtain ⟨hs, _, hH, hUrl, hD, _⟩ :=
    updateEntry_fields entry entry1 (pyStrip raw) hue
  refine ⟨raw, fields, newFields, servers1, entry1,
    setKey hs "X-MCP-API-Key" (Json.str (pyStrip raw)), hA, hM, hmc, ?_, ?_,
    hH, getKey_setKey_self _ _ _, hUrl, hD⟩
  · rw [heq]; exact getKey_setKey_self _ _ _
  · rw [← ensureServer_fst, hs1]; exact getKey_setKey_self _ _ _

/-- **C4**: a successful update rebinds no sibling entry of `mcpServers`
(in particular `easygrid-mcp` is untouched when `easygrid` exists), and
inside a pre-existing chosen entry every field other than `headers`,
`url`, `description` keeps its value, as does every pre-existing header
other than `"X-MCP-API-Key"`. -/
theorem sibling_and_field_preservation (config servers result : List (String × Json))
    (apiKey : String)
    (hms : getKey config "mcpServers" = some (Json.obj servers))
    (hupd : updateConfig config apiKey = some result) :
    ∃ servers1, getKey result "mcpServers" = some (Json.obj servers1) ∧
      (∀ k, k ≠ chooseName servers → getKey servers1 k = getKey servers k) ∧
      (hasKey servers "easygrid" = true →
        getKey servers1 "easygrid-mcp" = getKey servers "easygrid-mcp") ∧
      (∀ entry, getKey servers (chooseName servers) = some (Json.obj entry) →
        ∃ entry1, getKey servers1 (chooseName servers) = some (Json.obj entry1) ∧
          (∀ f, f ≠ "headers" → f ≠ "url" → f ≠ "description" →
            getKey entry1 f = getKey entry f) ∧
          (∀ hs, getKey entry "headers" = some (Json.obj hs) →
            ∃ hs1, getKey entry1 "headers" = some (Json.obj hs1) ∧
              (∀ hk, hk ≠ "X-MCP-API-Key" →
                getKey hs1 hk = getKey hs hk))) := by
  have hme : ("easygrid-mcp" : String) ≠ "easygrid" := by decide
  obtain ⟨entry, entry1, servers1, hg, hue, hs1, heq⟩ :=
    updateConfig_success_shape config servers result apiKey hms hupd
  have hres : getKey result "mcpServers" = some (Json.obj servers1) := by
    rw [heq]; exact getKey_setKey_self _ _ _
  obtain ⟨hs0, hdisj, hH, hUrl, hD, hframe⟩ :=
    updateEntry_fields entry entry1 apiKey hue
  have hc : chooseName servers = (ensureServer servers).1 :=
    (ensureServer_fst servers).symm
  refine ⟨servers1, hres, ?_, ?_, ?_⟩ <;>
    rcases ensureServer_cases servers with ⟨hA, hpe⟩ | ⟨hA, hB, hpe⟩ | ⟨hA, hB, hpe⟩ <;>
    rw [hpe] at hs1 hg hc <;> simp only at hc
  · intro k hk
    rw [hc] at hk
    rw [hs1, getKey_setKey_ne _ _ _ _ hk]
  · intro k hk
    rw [hc] at hk
    rw [hs1, getKey_setKey_ne _ _ _ _ hk]
  · intro k hk
    rw [hc] at hk
    rw [hs1, setKey_setKey_same, getKey_setKey_ne _ _ _ _ hk]
  · intro _
    rw [hs1, getKey_setKey_ne _ _ _ _ hme]
  · intro hA1
    rw [hA] at hA1; cases hA1
  · intro hA1
    rw [hA] at hA1; cases hA1
  · intro entry0 hentry0
    rw [hc] at hentry0
    rw [hentry0] at hg
    have he0 : entry0 = entry := by simpa using hg
    subst he0
    refine ⟨entry1, ?_, hframe, ?_⟩
    · rw [hc, hs1]; exact getKey_setKey_self _ _ _
    · intro hs hhs
      rcases hdisj with hl | ⟨hr, _⟩
      · rw [hhs] at hl
        have hh0 : hs = hs0 := by simpa using hl
        subst hh0
        exact ⟨setKey hs "X-MCP-API-Key" (Json.str apiKey), hH,
          fun hk hhk => getKey_setKey_ne _ _ _ _ hhk⟩
      · rw [hasKey, hhs] at hr; cases hr
  · intro entry0 hentry0
    rw [hc] at hentry0
    rw [hentry0] at hg
    have he0 : entry0 = entry := by simpa using hg
    subst he0
    refine ⟨entry1, ?_, hframe, ?_⟩
    · rw [hc, hs1]; exact getKey_setKey_self _ _ _
    · intro hs hhs
      rcases hdisj with hl | ⟨hr, _⟩
      · rw [hhs] at hl
        have hh0 : hs = hs0 := by simpa using hl
        subst hh0
        exact ⟨setKey hs "X-MCP-API-Key" (Json.str apiKey), hH,
          fun hk hhk => getKey_setKey_ne _ _ _ _ hhk⟩
      · rw [hasKey, hhs] at hr; cases hr
  · intro entry0 hentry0
    rw [hc] at hentry0
    rw [hasKey, hentry0] at hA; cases hA

end EasyGrid

namespace EasyGrid

/-- **C5**: running `main` again with the same key file, starting from
the document a successful run produced, succeeds and leaves the
configuration document unchanged. -/
theorem run_idempotent (home : String) (fs : FS)
    (h : (run home fs).exitCode = some 0) :
    (run home (run home fs).fs).exitCode = some 0 ∧
    (run home (run home fs).fs).fs.mcpJson = (run home fs).fs.mcpJson := by
  obtain ⟨raw, fields, newFields, hA, hE, hM, hU⟩ := run_success_inv home fs h
  obtain ⟨_, _, hA1, hM1, _⟩ := run_success_eq home fs raw fields newFields hA hE hM hU
  have hU2 : updateConfig newFields (pyStrip raw) = some newFields :=
    updateConfig_idem fields newFields (pyStrip raw) hU
  obtain ⟨he2, _, _, hM2, _⟩ :=
    run_success_eq home ((run home fs).fs) raw newFields newFields hA1 hE hM1 hU2
  exact ⟨he2, by rw [hM2, hM1]⟩

/-- **C3**: missing key file, blank key, and missing config file each
exit with code 1, leave every file untouched, and print exactly the
diagnostics below — the remediation hint appearing only in the
missing-key-file case. -/
theorem failure_no_write (home : String) (fs : FS) :
    (fs.apiKeyFile = none →
      (run home fs).exitCode = some 1 ∧ (run home fs).fs = fs ∧
      (run home fs).trace =
        [Event.printed ("Error: API Key file not found at " ++
          (home ++ "/.easygrid/api-key")),
         Event.printed "Run: go run server/cmd/mcp-api-key/main.go -action=create"]) ∧
    (∀ raw, fs.apiKeyFile = some raw → pyStrip raw = "" →
      (run home fs).exitCode = some 1 ∧ (run home fs).fs = fs ∧
      (run home fs).trace = [Event.printed "Error: API Key is empty"]) ∧
    (∀ raw, fs.apiKeyFile = some raw → pyStrip raw ≠ "" → fs.mcpJson = none →
      (run home fs).exitCode = some 1 ∧ (run home fs).fs = fs ∧
      (run home fs).trace = [Event.printed ("Error: mcp.json not found at " ++
        (home ++ "/.cursor/mcp.json"))]) := by
  refine ⟨?_, ?_, ?_⟩
  · intro hA
    simp [run, hA]
  · intro raw hA hE
    simp [run, hA, hE]
  · intro raw hA hE hM
    simp [run, hA, hE, hM]

/-- **C6**: whenever a run writes the backup, what it writes is exactly
the pre-mutation configuration document, and it overwrites whatever
backup was there before. -/
theorem backup_is_premutation_snapshot (home : String) (fs : FS) (d : Json)
    (h : Event.wroteBak d ∈ (run home fs).trace) :
    fs.mcpJson = some d ∧ (run home fs).fs.mcpJsonBak = some d ∧
    ∀ prior, (run home { fs with mcpJsonBak := prior }).fs.mcpJsonBak = some d := by
  cases hA : fs.apiKeyFile with
  | none => simp [run, hA] at h
  | some raw =>
      by_cases hE : pyStrip raw = ""
      · simp [run, hA, hE] at h
      · cases hM : fs.mcpJson with
        | none => simp [run, hA, hE, hM] at h
        | some doc =>
            have hd : d = doc := by
              cases doc with
              | obj fields =>
                  cases hU : updateConfig fields (pyStrip raw) with
                  | none => simpa [run, hA, hE, hM, hU] using h
                  | some nf => simpa [run, hA, hE, hM, hU] using h
              | null => simpa [run, hA, hE, hM] using h
              | bool b => simpa [run, hA, hE, hM] using h
              | num n => simpa [run, hA, hE, hM] using h
              | str s => simpa [run, hA, hE, hM] using h
              | arr xs => simpa [run, hA, hE, hM] using h
            subst hd
            refine ⟨rfl, ?_, ?_⟩
            · cases d with
              | obj fields =>
                  cases hU : updateConfig fields (pyStrip raw) with
                  | none => simp [run, hA, hE, hM, hU]
                  | some nf => simp [run, hA, hE, hM, hU]
              | null => simp [run, hA, hE, hM]
              | bool b => simp [run, hA, hE, hM]
              | num n => simp [run, hA, hE, hM]
              | str s => simp [run, hA, hE, hM]
              | arr xs => simp [run, hA, hE, hM]
            · intro prior
              cases d with
              | obj fields =>
                  cases hU : updateConfig fields (pyStrip raw) with
                  | none => simp [run, hA, hE, hM, hU]
                  | some nf => simp [run, hA, hE, hM, hU]
              | null => simp [run, hA, hE, hM]
              | bool b => simp [run, hA, hE, hM]
              | num n => simp [run, hA, hE, hM]
              | str s => simp [run, hA, hE, hM]
              | arr xs => simp [run, hA, hE, hM]

end EasyGrid

namespace EasyGrid

/-- **C7**: when neither server key exists, the created `easygrid` entry
has exactly `headers`, `url`, `description`; on the spec's concrete
scenario (key file `"abc123\n"`, config `(\x7b"mcpServers":\x7b\x7d\x7d)`)
the run exits 0 with exactly the expected document. -/
theorem fresh_entry_exact (home : String) (servers : List (String × Json))
    (apiKey : String)
    (h0 : hasKey servers "easygrid" = false)
    (h1 : hasKey servers "easygrid-mcp" = false) :
    updateServers servers apiKey =
      some (setKey servers "easygrid" (Json.obj (newEntry apiKey))) ∧
    (run home (FS.mk (some "abc123\n")
      (some (Json.obj [("mcpServers", Json.obj [])])) none)).exitCode = some 0 ∧
    (run home (FS.mk (some "abc123\n")
      (some (Json.obj [("mcpServers", Json.obj [])])) none)).fs.mcpJson =
      some (Json.obj [("mcpServers", Json.obj [("easygrid", Json.obj
        [("headers", Json.obj [("X-MCP-API-Key", Json.str "abc123")]),
         ("url", Json.str "http://localhost:8080/api/mcp/v1"),
         ("description", Json.str "EasyGrid CRUD - MCP HTTP")])])]) := by
  have hpe : ensureServer servers =
      ("easygrid", setKey servers "easygrid" (Json.obj [])) := by
    simp [ensureServer, h0, h1]
  have hg : getKey (ensureServer servers).2 (ensureServer servers).1 =
      some (Json.obj []) := by
    rw [hpe]; exact getKey_setKey_self _ _ _
  have hstep := updateServers_eq servers [] (newEntry apiKey) apiKey hg
    (updateEntry_nil apiKey)
  rw [hpe] at hstep
  simp only at hstep
  rw [setKey_setKey_same] at hstep
  exact ⟨hstep, rfl, rfl⟩

/-- **C8**: in every run the configuration file is written at most once
and only after the backup write; and a run whose trace contains no
configuration write leaves the configuration file with its prior
content. -/
theorem config_write_ordering (home : String) (fs : FS) :
    backupBeforeConfigWrite false false (run home fs).trace = true ∧
    ((∀ e ∈ (run home fs).trace, isConfigWrite e = false) →
      (run home fs).fs.mcpJson = fs.mcpJson) := by
  cases hA : fs.apiKeyFile with
  | none => simp [run, hA, backupBeforeConfigWrite]
  | some raw =>
      by_cases hE : pyStrip raw = ""
      · simp [run, hA, hE, backupBeforeConfigWrite]
      · cases hM : fs.mcpJson with
        | none => simp [run, hA, hE, hM, backupBeforeConfigWrite]
        | some doc =>
            cases doc with
            | obj fields =>
                cases hU : updateConfig fields (pyStrip raw) with
                | none => simp [run, hA, hE, hM, hU, backupBeforeConfigWrite]
                | some nf =>
                    constructor
                    · simp [run, hA, hE, hM, hU, backupBeforeConfigWrite]
                    · intro hno
                      have hmem : Event.wroteConfig (Json.obj nf) ∈
                          (run home fs).trace := by
                        simp [run, hA, hE, hM, hU]
                      have := hno _ hmem
                      simp [isConfigWrite] at this
            | null => simp [run, hA, hE, hM, backupBeforeConfigWrite]
            | bool b => simp [run, hA, hE, hM, backupBeforeConfigWrite]
            | num n => simp [run, hA, hE, hM, backupBeforeConfigWrite]
            | str s => simp [run, hA, hE, hM, backupBeforeConfigWrite]
            | arr xs => simp [run, hA, hE, hM, backupBeforeConfigWrite]

/-- **C9**: a document without a top-level `mcpServers` key does not make
`main` fail: the key is created, the fresh `easygrid` entry is installed
under it, the run exits 0, and every other top-level key is preserved. -/
theorem missing_mcpservers_ok (home : String) (fs : FS) (raw : String)
    (fields : List (String × Json))
    (hA : fs.apiKeyFile = some raw) (hE : pyStrip raw ≠ "")
    (hM : fs.mcpJson = some (Json.obj fields))
    (hnone : hasKey fields "mcpServers" = false) :
    (run home fs).exitCode = some 0 ∧
    ∃ newFields, (run home fs).fs.mcpJson = some (Json.obj newFields) ∧
      getKey newFields "mcpServers" =
        some (Json.obj [("easygrid", Json.obj (newEntry (pyStrip raw)))]) ∧
      ∀ k, k ≠ "mcpServers" → getKey newFields k = getKey fields k := by
  have hU : updateConfig fields (pyStrip raw) =
      some (setKey fields "mcpServers"
        (Json.obj [("easygrid", Json.obj (newEntry (pyStrip raw)))])) := by
    rw [updateConfig_of_absent fields (pyStrip raw) hnone, updateServers_nil]
    simp only [Option.map_some', setKey_setKey_same]
  obtain ⟨he, _, _, hM1, _⟩ := run_success_eq home fs raw fields _ hA hE hM hU
  refine ⟨he, _, hM1, getKey_setKey_self _ _ _, ?_⟩
  intro k hk
  exact getKey_setKey_ne _ _ _ _ hk

/-- **C10**: `main` is a function of the key-file and config-file
contents alone: two runs over filesystems agreeing on those two files
produce the same exit code, the same prints and writes (in the same
order), and the same final configuration document. -/
theorem run_deterministic (home : String) (fs1 fs2 : FS)
    (h1 : fs1.apiKeyFile = fs2.apiKeyFile) (h2 : fs1.mcpJson = fs2.mcpJson) :
    (run home fs1).exitCode = (run home fs2).exitCode ∧
    (run home fs1).trace = (run home fs2).trace ∧
    (run home fs1).fs.mcpJson = (run home fs2).fs.mcpJson := by
  cases hA : fs2.apiKeyFile with
  | none => simp [run, h1, h2, hA]
  | some raw =>
      by_cases hE : pyStrip raw = ""
      · simp [run, h1, h2, hA, hE]
      · cases hM : fs2.mcpJson with
        | none => simp [run, h1, h2, hA, hE, hM]
        | some doc =>
            cases doc with
            | obj fields =>
                cases hU : updateConfig fields (pyStrip raw) with
                | none => simp [run, h1, h2, hA, hE, hM, hU]
                | some nf => simp [run, h1, h2, hA, hE, hM, hU]
            | null => simp [run, h1, h2, hA, hE, hM]
            | bool b => simp [run, h1, h2, hA, hE, hM]
            | num n => simp [run, h1, h2, hA, hE, hM]
            | str s => simp [run, h1, h2, hA, hE, hM]
            | arr xs => simp [run, h1, h2, hA, hE, hM]

end EasyGrid

namespace EasyGrid

/-- Witness for the selection rule at a config holding only
`easygrid-mcp`. -/
theorem entry_selection_rule_witness :
    (ensureServer [("easygrid-mcp", Json.obj [])]).1 =
      chooseName [("easygrid-mcp", Json.obj [])] ∧
    ∃ servers1,
      getKey [("mcpServers", Json.obj [("easygrid-mcp", Json.obj (newEntry "k"))])]
        "mcpServers" = some (Json.obj servers1) ∧
      hasKey servers1 (chooseName [("easygrid-mcp", Json.obj [])]) = true ∧
      (∀ k1, k1 ≠ chooseName [("easygrid-mcp", Json.obj [])] →
        getKey servers1 k1 = getKey [("easygrid-mcp", Json.obj [])] k1) ∧
      (hasKey [("easygrid-mcp", Json.obj [])] "easygrid" = false →
        hasKey [("easygrid-mcp", Json.obj [])] "easygrid-mcp" = true →
        hasKey servers1 "easygrid" = false) :=
  entry_selection_rule
    [("mcpServers", Json.obj [("easygrid-mcp", Json.obj [])])]
    [("easygrid-mcp", Json.obj [])]
    [("mcpServers", Json.obj [("easygrid-mcp", Json.obj (newEntry "k"))])]
    "k" rfl rfl

/-- Witness for the successful-run content property. -/
theorem success_entry_content_witness :
    ∃ raw fields newFields servers1 entry1 hs1,
      (some "k\n" : Option String) = some raw ∧
      (some (Json.obj [("mcpServers", Json.obj [])]) : Option Json) =
        some (Json.obj fields) ∧
      (run "/h" (FS.mk (some "k\n")
        (some (Json.obj [("mcpServers", Json.obj [])])) none)).fs.mcpJson =
        some (Json.obj newFields) ∧
      getKey newFields "mcpServers" = some (Json.obj servers1) ∧
      getKey servers1 (chooseName (serversOf fields)) = some (Json.obj entry1) ∧
      getKey entry1 "headers" = some (Json.obj hs1) ∧
      getKey hs1 "X-MCP-API-Key" = some (Json.str (pyStrip raw)) ∧
      getKey entry1 "url" = some (Json.str "http://localhost:8080/api/mcp/v1") ∧
      getKey entry1 "description" = some (Json.str "EasyGrid CRUD - MCP HTTP") :=
  success_entry_content "/h"
    (FS.mk (some "k\n") (some (Json.obj [("mcpServers", Json.obj [])])) none) rfl

/-- Witness for the failure paths: the missing-key-file case. -/
theorem failure_no_write_witness :
    (run "/h" (FS.mk none none none)).exitCode = some 1 ∧
    (run "/h" (FS.mk none none none)).fs = FS.mk none none none ∧
    (run "/h" (FS.mk none none none)).trace =
      [Event.printed ("Error: API Key file not found at " ++
        ("/h" ++ "/.easygrid/api-key")),
       Event.printed "Run: go run server/cmd/mcp-api-key/main.go -action=create"] :=
  (failure_no_write "/h" (FS.mk none none none)).1 rfl

/-- Witness for the frame property at an `easygrid` entry carrying extra
fields and extra headers. -/
theorem sibling_and_field_preservation_witness :
    ∃ servers1,
      getKey [("mcpServers", Json.obj
        [("easygrid", Json.obj
          [("headers", Json.obj [("Old", Json.str "v"),
            ("X-MCP-API-Key", Json.str "k")]),
           ("note", Json.str "keep"),
           ("url", Json.str "http://localhost:8080/api/mcp/v1"),
           ("description", Json.str "EasyGrid CRUD - MCP HTTP")]),
         ("easygrid-mcp", Json.obj [])])] "mcpServers" = some (Json.obj servers1) ∧
      (∀ k, k ≠ chooseName [("easygrid", Json.obj
          [("headers", Json.obj [("Old", Json.str "v")]),
           ("note", Json.str "keep")]), ("easygrid-mcp", Json.obj [])] →
        getKey servers1 k = getKey [("easygrid", Json.obj
          [("headers", Json.obj [("Old", Json.str "v")]),
           ("note", Json.str "keep")]), ("easygrid-mcp", Json.obj [])] k) ∧
      (hasKey [("easygrid", Json.obj
          [("headers", Json.obj [("Old", Json.str "v")]),
           ("note", Json.str "keep")]), ("easygrid-mcp", Json.obj [])]
          "easygrid" = true →
        getKey servers1 "easygrid-mcp" = getKey [("easygrid", Json.obj
          [("headers", Json.obj [("Old", Json.str "v")]),
           ("note", Json.str "keep")]), ("easygrid-mcp", Json.obj [])]
          "easygrid-mcp") ∧
      (∀ entry, getKey [("easygrid", Json.obj
          [("headers", Json.obj [("Old", Json.str "v")]),
           ("note", Json.str "keep")]), ("easygrid-mcp", Json.obj [])]
          (chooseName [("easygrid", Json.obj
            [("headers", Json.obj [("Old", Json.str "v")]),
             ("note", Json.str "keep")]), ("easygrid-mcp", Json.obj [])]) =
          some (Json.obj entry) →
        ∃ entry1, getKey servers1 (chooseName [("easygrid", Json.obj
            [("headers", Json.obj [("Old", Json.str "v")]),
             ("note", Json.str "keep")]), ("easygrid-mcp", Json.obj [])]) =
            some (Json.obj entry1) ∧
          (∀ f, f ≠ "headers" → f ≠ "url" → f ≠ "description" →
            getKey entry1 f = getKey entry f) ∧
          (∀ hs, getKey entry "headers" = some (Json.obj hs) →
            ∃ hs1, getKey entry1 "headers" = some (Json.obj hs1) ∧
              (∀ hk, hk ≠ "X-MCP-API-Key" →
                getKey hs1 hk = getKey hs hk))) :=
  sibling_and_field_preservation
    [("mcpServers", Json.obj [("easygrid", Json.obj
      [("headers", Json.obj [("Old", Json.str "v")]),
       ("note", Json.str "keep")]), ("easygrid-mcp", Json.obj [])])]
    [("easygrid", Json.obj [("headers", Json.obj [("Old", Json.str "v")]),
      ("note", Json.str "keep")]), ("easygrid-mcp", Json.obj [])]
    [("mcpServers", Json.obj
      [("easygrid", Json.obj
        [("headers", Json.obj [("Old", Json.str "v"),
          ("X-MCP-API-Key", Json.str "k")]),
         ("note", Json.str "keep"),
         ("url", Json.str "http://localhost:8080/api/mcp/v1"),
         ("description", Json.str "EasyGrid CRUD - MCP HTTP")]),
       ("easygrid-mcp", Json.obj [])])]
    "k" rfl rfl

/-- Witness for idempotence on a config without `mcpServers`. -/
theorem run_idempotent_witness :
    (run "/h" (run "/h" (FS.mk (some "k") (some (Json.obj [])) none)).fs).exitCode =
      some 0 ∧
    (run "/h" (run "/h" (FS.mk (some "k") (some (Json.obj [])) none)).fs).fs.mcpJson =
      (run "/h" (FS.mk (some "k") (some (Json.obj [])) none)).fs.mcpJson :=
  run_idempotent "/h" (FS.mk (some "k") (some (Json.obj [])) none) rfl

/-- Witness for the backup snapshot on a successful run. -/
theorem backup_is_premutation_snapshot_witness :
    (FS.mk (some "k") (some (Json.obj [])) none).mcpJson = some (Json.obj []) ∧
    (run "/h" (FS.mk (some "k") (some (Json.obj [])) none)).fs.mcpJsonBak =
      some (Json.obj []) ∧
    ∀ prior, (run "/h" (FS.mk (some "k") (some (Json.obj []))
      prior)).fs.mcpJsonBak = some (Json.obj []) :=
  backup_is_premutation_snapshot "/h"
    (FS.mk (some "k") (some (Json.obj [])) none) (Json.obj []) (List.Mem.head _)

/-- Witness for the fresh-entry shape and the concrete scenario. -/
theorem fresh_entry_exact_witness :
    updateServers [] "abc123" =
      some (setKey [] "easygrid" (Json.obj (newEntry "abc123"))) ∧
    (run "/h" (FS.mk (some "abc123\n")
      (some (Json.obj [("mcpServers", Json.obj [])])) none)).exitCode = some 0 ∧
    (run "/h" (FS.mk (some "abc123\n")
      (some (Json.obj [("mcpServers", Json.obj [])])) none)).fs.mcpJson =
      some (Json.obj [("mcpServers", Json.obj [("easygrid", Json.obj
        [("headers", Json.obj [("X-MCP-API-Key", Json.str "abc123")]),
         ("url", Json.str "http://localhost:8080/api/mcp/v1"),
         ("description", Json.str "EasyGrid CRUD - MCP HTTP")])])]) :=
  fresh_entry_exact "/h" [] "abc123" rfl rfl

/-- Witness for the write-ordering property on a failing run. -/
theorem config_write_ordering_witness :
    backupBeforeConfigWrite false false
      (run "/h" (FS.mk none none none)).trace = true ∧
    (run "/h" (FS.mk none none none)).fs.mcpJson =
      (FS.mk none none none).mcpJson :=
  ⟨(config_write_ordering "/h" (FS.mk none none none)).1,
   (config_write_ordering "/h" (FS.mk none none none)).2 (by decide)⟩

/-- Witness for the missing-`mcpServers` behaviour. -/
theorem missing_mcpservers_ok_witness :
    (run "/h" (FS.mk (some " key ")
      (some (Json.obj [("other", Json.str "x")])) none)).exitCode = some 0 ∧
    ∃ newFields, (run "/h" (FS.mk (some " key ")
        (some (Json.obj [("other", Json.str "x")])) none)).fs.mcpJson =
        some (Json.obj newFields) ∧
      getKey newFields "mcpServers" =
        some (Json.obj [("easygrid", Json.obj (newEntry (pyStrip " key ")))]) ∧
      ∀ k, k ≠ "mcpServers" →
        getKey newFields k = getKey [("other", Json.str "x")] k :=
  missing_mcpservers_ok "/h"
    (FS.mk (some " key ") (some (Json.obj [("other", Json.str "x")])) none)
    " key " [("other", Json.str "x")] rfl (by decide) rfl rfl

/-- Witness for determinism: two filesystems differing only in the prior
backup. -/
theorem run_deterministic_witness :
    (run "/h" (FS.mk (some "k") (some (Json.obj [])) none)).exitCode =
      (run "/h" (FS.mk (some "k") (some (Json.obj [])) (some Json.null))).exitCode ∧
    (run "/h" (FS.mk (some "k") (some (Json.obj [])) none)).trace =
      (run "/h" (FS.mk (some "k") (some (Json.obj [])) (some Json.null))).trace ∧
    (run "/h" (FS.mk (some "k") (some (Json.obj [])) none)).fs.mcpJson =
      (run "/h" (FS.mk (some "k") (some (Json.obj [])) (some Json.null))).fs.mcpJson :=
  run_deterministic "/h" (FS.mk (some "k") (some (Json.obj [])) none)
    (FS.mk (some "k") (some (Json.obj [])) (some Json.null)) rfl rfl

end EasyGrid
